import Mathlib

/-!
Shallow embedding of the s3lite client (src/s3lite/client.py) and proofs of
the specification claims about it.

The embedding models:
* the response-error classifier `Client._check_error` (client.py lines 51-64),
* the byte-range header construction in `Client.download_object` (lines 112-116),
* the multipart upload engine `Client._upload_object_multipart` (lines 136-175),
  including the stream-splitting read loop, the per-part `_upload_task`
  coroutine, the result aggregation (`asyncio.gather` + Python `sorted`), and
  the completion body construction,
* the semaphore admission discipline of the part tasks, as a small-step
  transition system, to state the concurrency bound.

Python values are modelled as follows: `bytes` payloads become `List Nat`,
Python `int` becomes `Int` (or `Nat` where the source value is a length or a
count), exceptions become an explicit error type `PyError` threaded through
`Except`, and the parsed XML error envelope is abstracted to the two element
lookups the classifier performs.
-/

namespace S3lite

/-! ## Definitions: the embedded program -/

/-- Errors that can escape the modelled code paths.
`s3 code message` models `S3Exception(code, message)` (s3lite.exceptions);
`attrError` models Python's `AttributeError` raised by `None.text`;
`keyError` models Python's `KeyError` raised by `resp_.headers["ETag"]`
when the header is absent;
`valueError` models the `ValueError` raised by `asyncio.Semaphore(n)` for
negative `n`. -/
inductive PyError where
  | s3 (code message : String)
  | attrError
  | keyError
  | valueError
  deriving DecidableEq, Repr

/-- Abstraction of the parsed XML error envelope, keeping exactly what
`_check_error` looks at: the result of `get_xml_attr(error, "Code", ns="")`
and of `get_xml_attr(error, "Message", ns="")`.

Modelled from the spec: `get_xml_attr` lives in `s3lite.utils`, which is not
part of the given sources; per the spec the error body is "a fixed XML error
envelope with `Code` and `Message` elements in a known namespace", and the
lookup of an absent element yields Python `None`, on which the subsequent
`.text` access raises `AttributeError`.  A `none` field therefore means the
element is absent; `some t` means the element is present with text `t`. -/
structure XmlErrorDoc where
  codeElem : Option String
  messageElem : Option String
  deriving DecidableEq, Repr

/-- Abstraction of an `httpx.Response` as seen by the modelled code paths:
the status code, the outcome of `ElementTree.parse` on the body
(`none` = the parse raised, mirroring the bare `except:` at client.py line 57),
and the optional `ETag` response header used by `_upload_task`. -/
structure HttpResponse where
  status : Nat
  body : Option XmlErrorDoc
  etagHeader : Option String
  deriving DecidableEq, Repr

/-- client.py line 20: `IGNORED_ERRORS = {"BucketAlreadyOwnedByYou"}`
(a set; only membership is used). -/
def IGNORED_ERRORS : List String := ["BucketAlreadyOwnedByYou"]

/-- The fixed exception raised at client.py line 58 when the error body fails
to parse: `S3Exception("S3liteError", "Failed to parse response xml.")`. -/
def parseFailureError : PyError := .s3 "S3liteError" "Failed to parse response xml."

/-- `Client._check_error` (client.py lines 51-64):
return on `status < 400`; otherwise parse the body (parse failure raises the
fixed `parseFailureError`); read `Code` and `Message` element texts
(an absent element raises `AttributeError` via `None.text`); raise
`S3Exception(code, message)` unless the code is in `IGNORED_ERRORS`. -/
def check_error (r : HttpResponse) : Except PyError Unit :=
  if r.status < 400 then .ok ()
  else
    match r.body with
    | none => .error parseFailureError
    | some doc =>
      match doc.codeElem with
      | none => .error .attrError
      | some code =>
        match doc.messageElem with
        | none => .error .attrError
        | some message =>
          if code ∈ IGNORED_ERRORS then .ok ()
          else .error (.s3 code message)

/-- The Range header computed by `Client.download_object`
(client.py lines 112-116): when `offset > 0 or limit > 0`, clamp both to be
non-negative and emit `bytes={offset}-{offset+limit-1}` when the clamped
`limit` is truthy (non-zero), else the open-ended `bytes={offset}-`;
otherwise no Range header is sent. -/
def downloadRangeHeader (offset limit : Int) : Option String :=
  if offset > 0 ∨ limit > 0 then
    let offset := max offset 0
    let limit := max limit 0
    some (if limit ≠ 0 then s!"bytes={offset}-{offset + limit - 1}"
          else s!"bytes={offset}-")
  else none

/-- The part-reading loop of `_upload_object_multipart` (client.py lines
157-164): `while data := file.read(partSize): tasks.append(_upload_task(part,
data)); part += 1`.  The stream is modelled as the list of bytes not yet
read; `file.read(partSize)` returns the next `min partSize |s|` bytes
(`s.take partSize`) and advances the position (`s.drop partSize`); the loop
stops when the read is empty, which happens at end of stream or when
`partSize = 0` (Python `read(0)` returns `b""`).  The result pairs each
part's number (starting at `k`, incremented per iteration) with its bytes. -/
def uploadLoop (partSize : Nat) (k : Nat) (s : List Nat) : List (Nat × List Nat) :=
  if h : partSize = 0 ∨ s = [] then []
  else (k, s.take partSize) :: uploadLoop partSize (k + 1) (s.drop partSize)
  termination_by s.length
  decreasing_by
    push_neg at h
    have h1 : 0 < partSize := Nat.pos_of_ne_zero h.1
    have h2 : 0 < s.length := List.length_pos.mpr h.2
    simp only [List.length_drop]
    omega

/-- Modelled from the spec: `NS_URL` is defined in `s3lite.utils`, which is
not among the given sources; it is the URL of the "known namespace" of the
S3 XML envelope, used verbatim inside request bodies.  No claim depends on
its exact value. -/
def NS_URL : String := "http://s3.amazonaws.com/doc/2006-03-01/"

/-- The per-part XML fragment returned by `_upload_task` (client.py line
155): `<Part><ETag>{etag}</ETag><PartNumber>{part_number}</PartNumber></Part>`. -/
def partXml (partNumber : Nat) (etag : String) : String :=
  s!"<Part><ETag>{etag}</ETag><PartNumber>{partNumber}</PartNumber></Part>"

/-- Python's comparison on the `(part_number, xml_fragment)` tuples returned
by `_upload_task`: lexicographic, first component first, falling back to
string comparison on ties. -/
def tupleLe (a b : Nat × String) : Prop :=
  a.1 < b.1 ∨ (a.1 = b.1 ∧ a.2 ≤ b.2)

instance : DecidableRel tupleLe := fun a b =>
  inferInstanceAs (Decidable (a.1 < b.1 ∨ (a.1 = b.1 ∧ a.2 ≤ b.2)))

instance : IsTotal (Nat × String) tupleLe where
  total a b := by
    rcases Nat.lt_trichotomy a.1 b.1 with h | h | h
    · exact Or.inl (Or.inl h)
    · rcases le_total a.2 b.2 with h2 | h2
      · exact Or.inl (Or.inr ⟨h, h2⟩)
      · exact Or.inr (Or.inr ⟨h.symm, h2⟩)
    · exact Or.inr (Or.inl h)

instance : IsTrans (Nat × String) tupleLe where
  trans a b c hab hbc := by
    rcases hab with h1 | ⟨h1, h1s⟩ <;> rcases hbc with h2 | ⟨h2, h2s⟩
    · exact Or.inl (Nat.lt_trans h1 h2)
    · exact Or.inl (h2 ▸ h1)
    · exact Or.inl (h1 ▸ h2)
    · exact Or.inr ⟨h1.trans h2, le_trans h1s h2s⟩

instance : IsAntisymm (Nat × String) tupleLe where
  antisymm a b hab hba := by
    rcases hab with h1 | ⟨h1, h1s⟩ <;> rcases hba with h2 | ⟨h2, h2s⟩
    · omega
    · omega
    · omega
    · exact Prod.ext h1 (le_antisymm h1s h2s)

/-- `sorted(await asyncio.gather(*tasks))` at client.py line 166: Python's
`sorted` is a stable sort under tuple comparison; it is modelled by
insertion sort (extensionally the same function, both being stable sorts
for the same total preorder). -/
def pySorted (l : List (Nat × String)) : List (Nat × String) :=
  List.insertionSort tupleLe l

/-- The body of the "complete multipart upload" POST (client.py lines
167-171): the sorted parts' XML fragments concatenated inside the
`CompleteMultipartUpload` envelope. -/
def completionBody (results : List (Nat × String)) : String :=
  "<?xml version=\"1.0\" encoding=\"UTF-8\"?>"
    ++ s!"<CompleteMultipartUpload xmlns=\"{NS_URL}\">"
    ++ String.join ((pySorted results).map Prod.snd)
    ++ "</CompleteMultipartUpload>"

/-- The canonical all-success outcome of `n` part tasks: part `i` produced
the fragment `partXml i (etag i)`, listed in part-number order `1, ..., n`. -/
def canonResults (n : Nat) (etag : Nat → String) : List (Nat × String) :=
  (List.range' 1 n).map fun i => (i, partXml i (etag i))

/-- `_upload_task` (client.py lines 146-155), modelled as a pair: whether
the `sem.release()` at line 154 was executed, and the task's outcome.
The task acquires the semaphore (line 147), performs its PUT (whose backend
response is `r`), checks it with `_check_error` (line 151), reads the
`ETag` response header (line 152, Python `KeyError` if absent), and only
then reaches `sem.release()`; there is no try/finally, so an exception on
any of those lines propagates out of the coroutine with the release line
never executed. -/
def upload_task (partNumber : Nat) (r : HttpResponse) :
    Bool × Except PyError (Nat × String) :=
  match check_error r with
  | .error e => (false, .error e)
  | .ok () =>
    match r.etagHeader with
    | none => (false, .error .keyError)
    | some etag => (true, .ok (partNumber, partXml partNumber etag))

/-- `await asyncio.gather(*tasks)` (client.py line 166): when every task
succeeds, the list of their results in task order (asyncio's gather returns
results in argument order, not completion order); when some task fails, the
exception propagates.  Which failing task's exception wins is
scheduling-dependent in asyncio; this deterministic model picks the first
in task order — every claim proved below depends only on whether gather
fails, not on which error is picked. -/
def gatherExcept : List (Except PyError (Nat × String)) →
    Except PyError (List (Nat × String))
  | [] => .ok []
  | .error e :: _ => .error e
  | .ok a :: rest => (gatherExcept rest).map (fun l => a :: l)

/-- The backend as seen by one multipart upload: the response to the
initiate POST, the response to each part's PUT (by part number), and the
response to the completion POST. -/
structure Backend where
  initiateResp : HttpResponse
  partResp : Nat → HttpResponse
  completeResp : HttpResponse

/-- The schedule-independent network calls of the engine: the initiate POST
(line 139) and the completion POST (line 172) with its body.  The per-part
PUTs are not traced here: which of them get issued before a failure
propagates is scheduling-dependent (their admission discipline is modelled
separately by `GateStep`). -/
inductive CallEvent where
  | initiate
  | complete (body : String)
  deriving DecidableEq, Repr

/-- Outcome of `_upload_object_multipart`: the synthesized object's total
size on success, a propagated exception, or a deadlock (every task blocked
forever in `sem.acquire()`). -/
inductive RunResult where
  | ok (totalSize : Nat)
  | error (e : PyError)
  | deadlock
  deriving DecidableEq, Repr

/-- `_upload_object_multipart` (client.py lines 136-175), as the pair of the
trace of schedule-independent network calls and the outcome.
In source order: the initiate POST is issued and checked (lines 139-140);
`asyncio.Semaphore(max_concurrency)` is constructed (line 144) — a negative
argument raises `ValueError` there, after the initiate call; the read loop
splits the stream and creates one task per part (lines 157-164); gather
waits for all tasks (line 166) — with a zero-capacity semaphore and at
least one task, no task can ever be admitted and the await blocks forever;
on all-success the sorted completion body is POSTed and checked
(lines 166-173); the total size is the sum of the part sizes read. -/
def upload_object_multipart (maxConcurrency : Int) (partSize : Nat)
    (s : List Nat) (b : Backend) : List CallEvent × RunResult :=
  match check_error b.initiateResp with
  | .error e => ([.initiate], .error e)
  | .ok () =>
    if maxConcurrency < 0 then ([.initiate], .error .valueError)
    else
      let parts := uploadLoop partSize 1 s
      if maxConcurrency = 0 ∧ parts ≠ [] then ([.initiate], .deadlock)
      else
        match gatherExcept (parts.map fun p => (upload_task p.1 (b.partResp p.1)).2) with
        | .error e => ([.initiate], .error e)
        | .ok results =>
          let body := completionBody results
          match check_error b.completeResp with
          | .error e => ([.initiate, .complete body], .error e)
          | .ok () =>
            ([.initiate, .complete body], .ok (parts.map fun p => p.2.length).sum)

/-- A backend whose every response is a plain 200 success carrying an ETag
header, for concrete runs of the engine. -/
def okBackend : Backend :=
  ⟨⟨200, none, none⟩, fun _ => ⟨200, none, some "etag1"⟩, ⟨200, none, none⟩⟩

/-- A backend like `okBackend` except that part 2's PUT answers 500 with an
`InternalError` envelope. -/
def failOnePartBackend : Backend :=
  ⟨⟨200, none, none⟩,
   fun n => if n = 2 then ⟨500, some ⟨some "InternalError", some "boom"⟩, none⟩
            else ⟨200, none, some "etag1"⟩,
   ⟨200, none, none⟩⟩

/-- State of the admission gate (`sem = asyncio.Semaphore(max_concurrency)`,
client.py line 144) together with the part-upload tasks, abstracted to
counts: `avail` is the semaphore's internal counter, `ready` the number of
tasks created but still blocked in `sem.acquire()` (line 147), `inFlight`
the number of tasks past the acquire and currently performing their network
call (lines 149-152), `finished` the number of completed tasks. -/
structure GateState where
  avail : Nat
  ready : Nat
  inFlight : Nat
  finished : Nat
  deriving DecidableEq, Repr

/-- One scheduler step of the part-upload tasks:
`acquire`: a blocked task returns from `sem.acquire()` — possible only when
the counter is positive, and it decrements it (the task's network call is
now in flight);
`finishOk`: an in-flight task whose PUT succeeded executes `sem.release()`
(line 154), incrementing the counter, and completes;
`finishFail`: an in-flight task whose PUT failed its check propagates the
exception before ever reaching `sem.release()`, so it completes without
returning its slot. -/
inductive GateStep : GateState → GateState → Prop where
  | acquire (g : GateState) (ha : 0 < g.avail) (hr : 0 < g.ready) :
      GateStep g ⟨g.avail - 1, g.ready - 1, g.inFlight + 1, g.finished⟩
  | finishOk (g : GateState) (hf : 0 < g.inFlight) :
      GateStep g ⟨g.avail + 1, g.ready, g.inFlight - 1, g.finished + 1⟩
  | finishFail (g : GateState) (hf : 0 < g.inFlight) :
      GateStep g ⟨g.avail, g.ready, g.inFlight - 1, g.finished + 1⟩

/-- Initial state of one multipart upload: semaphore counter
`maxConcurrency`, all `k` part tasks created and blocked at the acquire,
nothing in flight. -/
def gateInit (maxConcurrency k : Nat) : GateState :=
  ⟨maxConcurrency, k, 0, 0⟩

/-- States reachable by any interleaving of the part tasks. -/
def GateReachable (maxConcurrency k : Nat) (g : GateState) : Prop :=
  Relation.ReflTransGen GateStep (gateInit maxConcurrency k) g

/-! ## Supporting lemmas -/

/-- The loop never produces an empty part: each part is a nonempty chunk of
at most `partSize` bytes. -/
theorem uploadLoop_part_bounds (partSize k : Nat) (s : List Nat) :
    ∀ p ∈ uploadLoop partSize k s, p.2 ≠ [] ∧ p.2.length ≤ partSize := by
  induction k, s using uploadLoop.induct partSize with
  | case1 k s h =>
    rw [uploadLoop, dif_pos h]
    intro p hp
    exact absurd hp (List.not_mem_nil p)
  | case2 k s h ih =>
    rw [uploadLoop, dif_neg h]
    push_neg at h
    intro p hp
    rcases List.mem_cons.mp hp with rfl | hp
    · constructor
      · simp only [ne_eq, List.take_eq_nil_iff, not_or]
        exact ⟨h.1, h.2⟩
      · simp
    · exact ih p hp

/-- Concatenating the parts in read order reproduces the stream: the loop
reads the stream sequentially with no gaps, overlaps or reordering. -/
theorem uploadLoop_join (partSize k : Nat) (s : List Nat) (hP : partSize ≠ 0) :
    ((uploadLoop partSize k s).map Prod.snd).flatten = s := by
  induction k, s using uploadLoop.induct partSize with
  | case1 k s h =>
    rw [uploadLoop, dif_pos h]
    rcases h with h | h
    · exact absurd h hP
    · simp [h]
  | case2 k s h ih =>
    rw [uploadLoop, dif_neg h]
    simp only [List.map_cons, List.flatten_cons, ih]
    exact List.take_append_drop partSize s

/-- The part numbers assigned by the loop are exactly `k, k+1, ...`:
contiguous, starting from `k`, in strict read order. -/
theorem uploadLoop_numbers (partSize k : Nat) (s : List Nat) :
    (uploadLoop partSize k s).map Prod.fst
      = List.range' k (uploadLoop partSize k s).length := by
  induction k, s using uploadLoop.induct partSize with
  | case1 k s h =>
    rw [uploadLoop, dif_pos h]
    rfl
  | case2 k s h ih =>
    rw [uploadLoop, dif_neg h]
    simp only [List.map_cons, List.length_cons, List.range'_succ, ih]

/-- The loop produces `⌈|s| / partSize⌉` parts. -/
theorem uploadLoop_length (partSize k : Nat) (s : List Nat) (hP : 0 < partSize) :
    (uploadLoop partSize k s).length = (s.length + partSize - 1) / partSize := by
  induction k, s using uploadLoop.induct partSize with
  | case1 k s h =>
    rw [uploadLoop, dif_pos h]
    rcases h with h | h
    · omega
    · subst h
      simp only [List.length_nil, List.length]
      exact (Nat.div_eq_of_lt (by omega)).symm
  | case2 k s h ih =>
    rw [uploadLoop, dif_neg h]
    push_neg at h
    have hs : 0 < s.length := List.length_pos.mpr h.2
    simp only [List.length_cons, ih, List.length_drop]
    rcases Nat.lt_or_ge s.length partSize with hlt | hge
    · have h0 : s.length - partSize = 0 := by omega
      rw [h0]
      have h1 : (0 + partSize - 1) / partSize = 0 := Nat.div_eq_of_lt (by omega)
      have h2 : (s.length + partSize - 1) / partSize = 1 :=
        Nat.div_eq_of_lt_le (by omega) (by omega)
      omega
    · have heq : s.length - partSize + partSize - 1 = s.length - 1 := by omega
      rw [heq]
      have h2 : s.length + partSize - 1 = (s.length - 1) + partSize := by omega
      rw [h2, Nat.add_div_right _ hP]

/-- Every part before the last has exactly `partSize` bytes. -/
theorem uploadLoop_full_parts (partSize k : Nat) (s : List Nat) :
    ∀ p ∈ (uploadLoop partSize k s).dropLast, p.2.length = partSize := by
  induction k, s using uploadLoop.induct partSize with
  | case1 k s h =>
    rw [uploadLoop, dif_pos h]
    intro p hp
    exact absurd hp (List.not_mem_nil p)
  | case2 k s h ih =>
    rw [uploadLoop, dif_neg h]
    push_neg at h
    intro p hp
    rcases heq : uploadLoop partSize (k + 1) (s.drop partSize) with _ | ⟨q, rest⟩
    · rw [heq] at hp
      exact absurd hp (List.not_mem_nil p)
    · rw [heq, List.dropLast_cons₂] at hp
      rcases List.mem_cons.mp hp with hpe | hp
      · subst hpe
        have hsP : partSize ≤ s.length := by
          by_contra hlt
          push_neg at hlt
          have hdnil : s.drop partSize = [] := List.drop_eq_nil_of_le (le_of_lt hlt)
          rw [uploadLoop, dif_pos (Or.inr hdnil)] at heq
          exact List.cons_ne_nil q rest heq.symm
        simp [List.length_take, Nat.min_eq_left hsP]
      · have := ih p
        rw [heq] at this
        exact this hp

/-- The last part holds the remainder: `|s| % partSize` bytes when the
length is not an exact multiple of `partSize`, a full `partSize` bytes when
it is (no empty trailing part). -/
theorem uploadLoop_last (partSize k : Nat) (s : List Nat)
    (hP : 0 < partSize) (hs : s ≠ []) :
    (uploadLoop partSize k s).getLast?.map (fun p => p.2.length)
      = some (if s.length % partSize = 0 then partSize else s.length % partSize) := by
  induction k, s using uploadLoop.induct partSize with
  | case1 k s h =>
    rcases h with h | h
    · omega
    · exact absurd h hs
  | case2 k s h ih =>
    rw [uploadLoop, dif_neg h]
    push_neg at h
    have hslen : 0 < s.length := List.length_pos.mpr h.2
    rcases Nat.lt_or_ge s.length partSize with hlt | hge
    · have hnil : s.drop partSize = [] := List.drop_eq_nil_of_le (le_of_lt hlt)
      rw [hnil, uploadLoop, dif_pos (Or.inr rfl)]
      have hmod : s.length % partSize = s.length := Nat.mod_eq_of_lt hlt
      rw [hmod, if_neg (by omega)]
      simp [List.length_take, Nat.min_eq_right (le_of_lt hlt)]
    · rcases Nat.lt_or_ge partSize s.length with hlt2 | hge2
      · have hne : s.drop partSize ≠ [] := by
          simp only [ne_eq, List.drop_eq_nil_iff]
          omega
        have htail := ih hne
        have hcons : uploadLoop partSize (k + 1) (s.drop partSize) ≠ [] := by
          intro hcon
          rw [hcon] at htail
          simp at htail
        have hmod : (s.length - partSize) % partSize = s.length % partSize := by
          conv_rhs => rw [← Nat.sub_add_cancel hge, Nat.add_mod_right]
        obtain ⟨q, rest, hqr⟩ := List.exists_cons_of_ne_nil hcons
        rw [hqr, List.getLast?_cons_cons, ← hqr, htail, List.length_drop, hmod]
      · have hlen : s.length = partSize := by omega
        have hnil : s.drop partSize = [] := List.drop_eq_nil_of_le hge2
        rw [hnil, uploadLoop, dif_pos (Or.inr rfl)]
        rw [hlen, Nat.mod_self, if_pos rfl]
        simp [List.length_take, hlen]

theorem canonResults_sorted (n : Nat) (etag : Nat → String) :
    List.Sorted tupleLe (canonResults n etag) := by
  unfold canonResults List.Sorted
  rw [List.pairwise_map]
  exact (List.pairwise_lt_range' 1 n).imp fun h => Or.inl h

/-- Sorting any completion-order permutation of the canonical results
restores exactly the part-number-ascending canonical list. -/
theorem pySorted_perm_canon (n : Nat) (etag : Nat → String)
    (completed : List (Nat × String))
    (hperm : completed.Perm (canonResults n etag)) :
    pySorted completed = canonResults n etag :=
  List.eq_of_perm_of_sorted
    ((List.perm_insertionSort tupleLe completed).trans hperm)
    (List.sorted_insertionSort tupleLe completed)
    (canonResults_sorted n etag)

/-- If a list of task outcomes contains a failure, gather propagates a
failure, and that failure is one of the listed outcomes. -/
theorem gatherExcept_error (l : List (Except PyError (Nat × String)))
    (hfail : ∃ x ∈ l, ∃ e, x = .error e) :
    ∃ e, gatherExcept l = .error e ∧ Except.error e ∈ l := by
  induction l with
  | nil =>
    obtain ⟨x, hx, _⟩ := hfail
    exact absurd hx (List.not_mem_nil x)
  | cons hd tl ih =>
    match hd with
    | .error e => exact ⟨e, rfl, List.mem_cons_self _ _⟩
    | .ok a =>
      obtain ⟨x, hx, e, hxe⟩ := hfail
      rcases List.mem_cons.mp hx with rfl | hxtl
      · exact absurd hxe (by simp)
      · obtain ⟨e', he', hmem⟩ := ih ⟨x, hxtl, e, hxe⟩
        refine ⟨e', ?_, List.mem_cons_of_mem _ hmem⟩
        simp only [gatherExcept, he']
        rfl

/-- If every task outcome is a success, gather succeeds. -/
theorem gatherExcept_ok (l : List (Except PyError (Nat × String)))
    (hok : ∀ x ∈ l, ∃ v, x = .ok v) :
    ∃ vs, gatherExcept l = .ok vs := by
  induction l with
  | nil => exact ⟨[], rfl⟩
  | cons hd tl ih =>
    obtain ⟨v, hv⟩ := hok hd (List.mem_cons_self _ _)
    obtain ⟨vs, hvs⟩ := ih fun x hx => hok x (List.mem_cons_of_mem _ hx)
    subst hv
    exact ⟨v :: vs, by simp only [gatherExcept, hvs]; rfl⟩

/-- Gate invariant: the semaphore counter plus the number of in-flight
network calls never exceeds the gate's capacity (each admission moves one
unit from the counter to in-flight; a successful finish moves it back; a
failed finish loses the unit — which only lowers the sum). -/
theorem gate_invariant (maxConcurrency k : Nat) (g : GateState)
    (h : GateReachable maxConcurrency k g) :
    g.avail + g.inFlight ≤ maxConcurrency := by
  induction h with
  | refl => simp [gateInit]
  | tail hsteps hstep ih =>
    cases hstep with
    | acquire ha hr => simp only []; omega
    | finishOk hf => simp only []; omega
    | finishFail hf => simp only []; omega

/-! ## The claims -/

/-- C1: for every stream of length `L > 0` and part size `P > 0`, the
multipart read loop yields `⌈L/P⌉` parts, every part except possibly the
last has exactly `P` bytes, the last part has `L mod P` bytes (or exactly
`P` when `L mod P = 0`, with no empty trailing part), part numbers are the
contiguous sequence `1, 2, ...` in strict read order, and the parts
concatenate back to the stream (sequential reading). -/
theorem multipart_split_spec (P : Nat) (s : List Nat) (hP : 0 < P) (hs : s ≠ []) :
    (uploadLoop P 1 s).length = (s.length + P - 1) / P ∧
    (∀ p ∈ (uploadLoop P 1 s).dropLast, p.2.length = P) ∧
    (uploadLoop P 1 s).getLast?.map (fun p => p.2.length)
      = some (if s.length % P = 0 then P else s.length % P) ∧
    (uploadLoop P 1 s).map Prod.fst = List.range' 1 (uploadLoop P 1 s).length ∧
    ((uploadLoop P 1 s).map Prod.snd).flatten = s :=
  ⟨uploadLoop_length P 1 s hP,
   uploadLoop_full_parts P 1 s,
   uploadLoop_last P 1 s hP hs,
   uploadLoop_numbers P 1 s,
   uploadLoop_join P 1 s (Nat.pos_iff_ne_zero.mp hP)⟩

/-- Witness for C1: a 5-byte stream with part size 2 splits into parts
numbered 1, 2, 3 of sizes 2, 2, 1. -/
theorem multipart_split_spec_witness :
    0 < 2 ∧ ([10, 11, 12, 13, 14] : List Nat) ≠ [] ∧
    ((uploadLoop 2 1 [10, 11, 12, 13, 14]).length = (5 + 2 - 1) / 2 ∧
     (∀ p ∈ (uploadLoop 2 1 [10, 11, 12, 13, 14]).dropLast, p.2.length = 2) ∧
     (uploadLoop 2 1 [10, 11, 12, 13, 14]).getLast?.map (fun p => p.2.length)
       = some (if (5 : Nat) % 2 = 0 then 2 else 5 % 2) ∧
     (uploadLoop 2 1 [10, 11, 12, 13, 14]).map Prod.fst
       = List.range' 1 (uploadLoop 2 1 [10, 11, 12, 13, 14]).length ∧
     ((uploadLoop 2 1 [10, 11, 12, 13, 14]).map Prod.snd).flatten
       = [10, 11, 12, 13, 14]) :=
  ⟨by decide, by decide,
   by
    have h := multipart_split_spec 2 [10, 11, 12, 13, 14] (by decide) (by decide)
    simpa using h⟩

/-- C2: when all part tasks succeed, the completion body lists exactly one
`<Part><ETag>..</ETag><PartNumber>..</PartNumber></Part>` entry per part,
in ascending part-number order `1, ..., n`, regardless of the order in
which the uploads completed (any permutation of the canonical results). -/
theorem completion_body_sorted (n : Nat) (etag : Nat → String)
    (completed : List (Nat × String))
    (hperm : completed.Perm (canonResults n etag)) :
    completionBody completed
      = "<?xml version=\"1.0\" encoding=\"UTF-8\"?>"
        ++ s!"<CompleteMultipartUpload xmlns=\"{NS_URL}\">"
        ++ String.join ((List.range' 1 n).map fun i => partXml i (etag i))
        ++ "</CompleteMultipartUpload>" := by
  unfold completionBody
  rw [pySorted_perm_canon n etag completed hperm]
  unfold canonResults
  rw [List.map_map]
  rfl

/-- Witness for C2: two parts whose results arrive in reversed completion
order still render in ascending part-number order. -/
theorem completion_body_sorted_witness :
    ([(2, partXml 2 "e2"), (1, partXml 1 "e1")] : List (Nat × String)).Perm
        (canonResults 2 fun i => "e" ++ toString i) ∧
    completionBody [(2, partXml 2 "e2"), (1, partXml 1 "e1")]
      = "<?xml version=\"1.0\" encoding=\"UTF-8\"?>"
        ++ "<CompleteMultipartUpload xmlns=\"http://s3.amazonaws.com/doc/2006-03-01/\">"
        ++ "<Part><ETag>e1</ETag><PartNumber>1</PartNumber></Part>"
        ++ "<Part><ETag>e2</ETag><PartNumber>2</PartNumber></Part>"
        ++ "</CompleteMultipartUpload>" := by
  have hperm : ([(2, partXml 2 "e2"), (1, partXml 1 "e1")] : List (Nat × String)).Perm
      (canonResults 2 fun i => "e" ++ toString i) := by
    have : canonResults 2 (fun i => "e" ++ toString i)
        = [(1, partXml 1 "e1"), (2, partXml 2 "e2")] := rfl
    rw [this]
    exact List.Perm.swap _ _ _
  refine ⟨hperm, ?_⟩
  rw [completion_body_sorted 2 (fun i => "e" ++ toString i) _ hperm]
  rfl

/-- C3: if the initiate call succeeded, concurrency is positive and at least
one part's PUT response fails the error classifier, the whole multipart
operation fails — its outcome is an error propagated from some failing part
task — and the completion POST is never issued. -/
theorem multipart_part_failure_aborts (mc : Int) (P : Nat) (s : List Nat)
    (b : Backend) (hmc : 0 < mc)
    (hinit : check_error b.initiateResp = .ok ())
    (hfail : ∃ p ∈ uploadLoop P 1 s, ∃ e, check_error (b.partResp p.1) = .error e) :
    (∃ e', (upload_object_multipart mc P s b).2 = .error e' ∧
       ∃ p ∈ uploadLoop P 1 s, (upload_task p.1 (b.partResp p.1)).2 = .error e') ∧
    ∀ body, CallEvent.complete body ∉ (upload_object_multipart mc P s b).1 := by
  obtain ⟨p0, hp0, e0, he0⟩ := hfail
  have htask : (upload_task p0.1 (b.partResp p0.1)).2 = .error e0 := by
    unfold upload_task
    rw [he0]
  have hmem : Except.error e0
      ∈ (uploadLoop P 1 s).map fun p => (upload_task p.1 (b.partResp p.1)).2 := by
    rw [← htask]
    exact List.mem_map_of_mem _ hp0
  obtain ⟨e', hg, hgmem⟩ := gatherExcept_error _ ⟨_, hmem, e0, rfl⟩
  obtain ⟨q, hq, hqe⟩ := List.mem_map.mp hgmem
  have hrun : upload_object_multipart mc P s b = ([.initiate], .error e') := by
    unfold upload_object_multipart
    rw [hinit]
    rw [if_neg (by omega), if_neg (fun hcon => by omega), hg]
  rw [hrun]
  exact ⟨⟨e', rfl, q, hq, hqe⟩, fun body => by simp⟩

/-- Witness for C3: with part size 1, stream `[7, 8]` and a backend failing
part 2, the whole operation errors and no completion call appears. -/
theorem multipart_part_failure_aborts_witness :
    (0 : Int) < 1 ∧
    check_error failOnePartBackend.initiateResp = .ok () ∧
    (∃ p ∈ uploadLoop 1 1 [7, 8], ∃ e,
        check_error (failOnePartBackend.partResp p.1) = .error e) ∧
    ((∃ e', (upload_object_multipart 1 1 [7, 8] failOnePartBackend).2 = .error e' ∧
        ∃ p ∈ uploadLoop 1 1 [7, 8],
          (upload_task p.1 (failOnePartBackend.partResp p.1)).2 = .error e') ∧
     ∀ body, CallEvent.complete body
        ∉ (upload_object_multipart 1 1 [7, 8] failOnePartBackend).1) := by
  have hmem : ((2 : Nat), ([8] : List Nat)) ∈ uploadLoop 1 1 [7, 8] := by
    rw [uploadLoop]
    rw [uploadLoop]
    rw [uploadLoop]
    simp
  have hfail : ∃ p ∈ uploadLoop 1 1 [7, 8], ∃ e,
      check_error (failOnePartBackend.partResp p.1) = .error e :=
    ⟨(2, [8]), hmem, .s3 "InternalError" "boom", rfl⟩
  exact ⟨by decide, rfl, hfail,
    multipart_part_failure_aborts 1 1 [7, 8] failOnePartBackend (by decide) rfl hfail⟩

/-- C4 counterexample: a part task whose PUT response fails the classifier
completes (propagating the error) with the semaphore slot NOT released —
`upload_task`'s released flag is `false` — refuting "releases that slot on
every completion path ... both when the upload succeeds and when it fails". -/
theorem upload_task_no_release_on_failure :
    (upload_task 1 ⟨500, some ⟨some "InternalError", some "boom"⟩, none⟩).2
      = .error (.s3 "InternalError" "boom") ∧
    (upload_task 1 ⟨500, some ⟨some "InternalError", some "boom"⟩, none⟩).1 = false :=
  ⟨rfl, rfl⟩

/-- C4 amended: the task acquires its slot before the network call and
reaches `sem.release()` iff the upload succeeds; on every failure path
(classifier error or missing ETag header) the exception propagates with the
slot left unreleased. -/
theorem upload_task_release_iff_success (n : Nat) (r : HttpResponse) :
    (upload_task n r).1 = true ↔ ∃ v, (upload_task n r).2 = .ok v := by
  unfold upload_task
  cases hc : check_error r with
  | error e => simp
  | ok u =>
    cases u
    cases he : r.etagHeader with
    | none => simp
    | some etag => simp

/-- C5: `check_error` returns normally when `status < 400`; when
`status ≥ 400` and the body parses as the expected envelope (both `Code` and
`Message` elements present), it raises `S3Exception(code, message)` iff the
code is not in the ignore-set `{"BucketAlreadyOwnedByYou"}`, so a
`BucketAlreadyOwnedByYou` error does not raise. -/
theorem check_error_spec (r : HttpResponse) (code message : String)
    (hbody : r.body = some ⟨some code, some message⟩) :
    (r.status < 400 → check_error r = .ok ()) ∧
    (400 ≤ r.status →
      (code ≠ "BucketAlreadyOwnedByYou" → check_error r = .error (.s3 code message)) ∧
      (code = "BucketAlreadyOwnedByYou" → check_error r = .ok ())) := by
  unfold check_error IGNORED_ERRORS
  refine ⟨fun hlt => by simp [hlt], fun hge => ⟨fun hne => ?_, fun heq => ?_⟩⟩
  · simp [Nat.not_lt.mpr hge, hbody, hne]
  · simp [Nat.not_lt.mpr hge, hbody, heq]

/-- Witness for C5 at concrete responses: a 409 `BucketAlreadyOwnedByYou`
envelope is swallowed, a 404 `NoSuchKey` envelope raises the typed error,
a 200 returns normally. -/
theorem check_error_spec_witness :
    (HttpResponse.mk 409 (some ⟨some "BucketAlreadyOwnedByYou", some "owned"⟩) none).body
        = some ⟨some "BucketAlreadyOwnedByYou", some "owned"⟩ ∧
    check_error ⟨409, some ⟨some "BucketAlreadyOwnedByYou", some "owned"⟩, none⟩ = .ok () ∧
    check_error ⟨404, some ⟨some "NoSuchKey", some "missing"⟩, none⟩
        = .error (.s3 "NoSuchKey" "missing") ∧
    check_error ⟨200, some ⟨some "NoSuchKey", some "missing"⟩, none⟩ = .ok () :=
  ⟨rfl,
   (check_error_spec ⟨409, some ⟨some "BucketAlreadyOwnedByYou", some "owned"⟩, none⟩
      "BucketAlreadyOwnedByYou" "owned" rfl).2 (by decide) |>.2 rfl,
   (check_error_spec ⟨404, some ⟨some "NoSuchKey", some "missing"⟩, none⟩
      "NoSuchKey" "missing" rfl).2 (by decide) |>.1 (by decide),
   (check_error_spec ⟨200, some ⟨some "NoSuchKey", some "missing"⟩, none⟩
      "NoSuchKey" "missing" rfl).1 (by decide)⟩

/-- C6 counterexample: with the all-success backend, a multipart upload with
`maxConcurrency = -1` (and likewise `0`) is NOT rejected before network
activity — the initiate POST is issued in both runs; the `-1` run then dies
with the semaphore constructor's `ValueError` and the `0` run deadlocks. -/
theorem multipart_invalid_concurrency_cx :
    (upload_object_multipart (-1) 1 [7] okBackend).1 = [CallEvent.initiate] ∧
    (upload_object_multipart (-1) 1 [7] okBackend).2 = .error .valueError ∧
    (upload_object_multipart 0 1 [7] okBackend).1 = [CallEvent.initiate] ∧
    (upload_object_multipart 0 1 [7] okBackend).2 = .deadlock := by
  have h1 : upload_object_multipart (-1) 1 [7] okBackend
      = ([.initiate], .error .valueError) := by
    unfold upload_object_multipart
    rw [if_pos (by decide : (-1 : Int) < 0)]
    rfl
  have hne : uploadLoop 1 1 [7] ≠ [] := by
    rw [uploadLoop]
    simp
  have h2 : upload_object_multipart 0 1 [7] okBackend = ([.initiate], .deadlock) := by
    unfold upload_object_multipart
    rw [if_neg (by decide : ¬ (0 : Int) < 0), if_pos ⟨rfl, hne⟩]
    rfl
  exact ⟨by rw [h1], by rw [h1], by rw [h2], by rw [h2]⟩

/-- C6 amended: the engine performs no validation of `maxConcurrency` before
its network calls.  After a successful initiate POST, a negative value makes
the semaphore constructor raise `ValueError` (so the run fails with the
initiate call already issued), and a zero value is not rejected at all: with
at least one part the run deadlocks, again after the initiate call. -/
theorem multipart_invalid_concurrency (mc : Int) (P : Nat) (s : List Nat)
    (b : Backend) (hinit : check_error b.initiateResp = .ok ()) :
    (mc < 0 → upload_object_multipart mc P s b = ([.initiate], .error .valueError)) ∧
    (mc = 0 → uploadLoop P 1 s ≠ [] →
      upload_object_multipart mc P s b = ([.initiate], .deadlock)) := by
  constructor
  · intro hneg
    unfold upload_object_multipart
    rw [hinit, if_pos hneg]
  · intro h0 hne
    unfold upload_object_multipart
    rw [hinit, if_neg (by omega), if_pos ⟨h0, hne⟩]

/-- Witness for the amended C6 at concrete inputs. -/
theorem multipart_invalid_concurrency_witness :
    check_error okBackend.initiateResp = .ok () ∧
    upload_object_multipart (-1) 1 [7] okBackend = ([.initiate], .error .valueError) ∧
    upload_object_multipart 0 1 [7] okBackend = ([.initiate], .deadlock) := by
  have hne : uploadLoop 1 1 [7] ≠ [] := by
    rw [uploadLoop]
    simp
  have h := multipart_invalid_concurrency (-1) 1 [7] okBackend rfl
  have h0 := multipart_invalid_concurrency 0 1 [7] okBackend rfl
  exact ⟨rfl, h.1 (by decide), h0.2 rfl hne⟩

/-- C7: the Range header of `download_object`. If `offset ≤ 0` and
`limit ≤ 0`, no header is sent; otherwise both values are clamped to be
non-negative and the header is `bytes=<offset>-<offset+limit-1>` when the
limit is positive, `bytes=<offset>-` when it is not. -/
theorem downloadRangeHeader_spec (offset limit : Int) :
    (offset ≤ 0 → limit ≤ 0 → downloadRangeHeader offset limit = none) ∧
    (0 < limit → downloadRangeHeader offset limit
        = some s!"bytes={max offset 0}-{max offset 0 + max limit 0 - 1}") ∧
    (0 < offset → limit ≤ 0 → downloadRangeHeader offset limit
        = some s!"bytes={max offset 0}-") := by
  unfold downloadRangeHeader
  refine ⟨fun ho hl => ?_, fun hl => ?_, fun ho hl => ?_⟩
  · rw [if_neg]; push_neg; exact ⟨ho, hl⟩
  · have hl0 : max limit 0 = limit := by omega
    have hne : limit ≠ 0 := by omega
    rw [if_pos (Or.inr hl)]
    simp [hl0, hne]
  · have hl0 : max limit 0 = 0 := by omega
    rw [if_pos (Or.inl ho)]
    simp [hl0]

/-- Witness for C7 at concrete offsets and limits, including a negative
offset that gets clamped to 0. -/
theorem downloadRangeHeader_spec_witness :
    ((0 : Int) ≤ 0 ∧ (0 : Int) ≤ 0 ∧ downloadRangeHeader 0 0 = none) ∧
    ((0 : Int) < 3 ∧ downloadRangeHeader (-2) 3 = some "bytes=0-2") ∧
    ((0 : Int) < 5 ∧ (-1 : Int) ≤ 0 ∧ downloadRangeHeader 5 (-1) = some "bytes=5-") :=
  ⟨⟨by decide, by decide, (downloadRangeHeader_spec 0 0).1 (by decide) (by decide)⟩,
   ⟨by decide, by
      have h := (downloadRangeHeader_spec (-2) 3).2.1 (by decide)
      rw [h]; rfl⟩,
   ⟨by decide, by decide, by
      have h := (downloadRangeHeader_spec 5 (-1)).2.2 (by decide) (by decide)
      rw [h]; rfl⟩⟩

/-- C8: on `status ≥ 400` with a body that fails to parse as XML,
`check_error` raises the fixed parse-failure error
`S3Exception("S3liteError", "Failed to parse response xml.")` — a constant
signalling a malformed response, carrying no backend-reported code. -/
theorem check_error_parse_failure (r : HttpResponse)
    (hge : 400 ≤ r.status) (hbody : r.body = none) :
    check_error r = .error parseFailureError := by
  unfold check_error
  simp [Nat.not_lt.mpr hge, hbody]

/-- Witness for C8: a 500 response with an unparseable body yields exactly the
fixed protocol error, whose code is the synthetic "S3liteError". -/
theorem check_error_parse_failure_witness :
    400 ≤ (HttpResponse.mk 500 none none).status ∧
    check_error ⟨500, none, none⟩ = .error parseFailureError ∧
    parseFailureError = .s3 "S3liteError" "Failed to parse response xml." :=
  ⟨by decide, check_error_parse_failure ⟨500, none, none⟩ (by decide) rfl, rfl⟩

/-- C9: for any part count `k` and any `maxConcurrency ≥ 1`, in every
reachable interleaving of the part tasks the number of simultaneously
in-flight part-upload network calls never exceeds `maxConcurrency`. -/
theorem concurrency_bound (maxConcurrency k : Nat) (g : GateState)
    (hmc : 1 ≤ maxConcurrency) (h : GateReachable maxConcurrency k g) :
    g.inFlight ≤ maxConcurrency := by
  have hinv := gate_invariant maxConcurrency k g h
  omega

/-- Witness for C9: with capacity 2 and 3 tasks, the state reached after two
admissions (one task still blocked, none finished) has 2 ≤ 2 in flight. -/
theorem concurrency_bound_witness :
    1 ≤ 2 ∧ GateReachable 2 3 ⟨0, 1, 2, 0⟩ ∧
    (GateState.mk 0 1 2 0).inFlight ≤ 2 := by
  have s1 : GateStep (gateInit 2 3) ⟨1, 2, 1, 0⟩ :=
    GateStep.acquire (gateInit 2 3) (by decide) (by decide)
  have s2 : GateStep ⟨1, 2, 1, 0⟩ ⟨0, 1, 2, 0⟩ :=
    GateStep.acquire ⟨1, 2, 1, 0⟩ (by decide) (by decide)
  have hreach : GateReachable 2 3 ⟨0, 1, 2, 0⟩ :=
    Relation.ReflTransGen.tail (Relation.ReflTransGen.tail Relation.ReflTransGen.refl s1) s2
  exact ⟨by decide, hreach, concurrency_bound 2 3 ⟨0, 1, 2, 0⟩ (by decide) hreach⟩

/-- C10: a 400-level response whose body is well-formed XML but lacks a `Code`
element (or lacks a `Message` element) makes `check_error` raise the untyped
`AttributeError` (from `None.text` at client.py lines 60-61), not an
`S3Exception`: the classifier is not total over incomplete envelopes. -/
theorem check_error_missing_element_attrError :
    check_error ⟨400, some ⟨none, none⟩, none⟩ = .error .attrError ∧
    check_error ⟨400, some ⟨some "NoSuchKey", none⟩, none⟩ = .error .attrError ∧
    check_error ⟨500, some ⟨none, some "a message"⟩, none⟩ = .error .attrError := by
  refine ⟨rfl, rfl, rfl⟩

end S3lite
